import Mathlib

/-!
Shallow embedding of the `richmenu` package (`src/richmenu/keys.py` and
`src/richmenu/menu.py`).

Python strings are modelled as lists of characters (`Str`), dictionaries as
association lists kept in insertion order, the mutable `Menu` object as an
explicit state record, and the blocking read-one-key loop as explicit state
passing over a scripted list of raw key tokens.  Exceptions are modelled as
explicit error results (`StepResult.err`, `Except PyExc`).

The third-party `thefuzz` library is not part of the repository's sources;
following the spec it is treated as an external collaborator: the weighted
ratio `fuzz.WRatio` is a parameter `w` constrained to `[0, 100]`
(`WRatioBounded`), and `process.extract` is modelled from the spec's search
policy (score every entry, stable sort by descending score, take `limit`).
-/

namespace RichMenu

/-- Python `str`, modelled as a list of characters. -/
abbrev Str := List Char

/-- Python `str.lower()` on the characters of the string. -/
def toLowerS (s : Str) : Str := s.map Char.toLower

/-! ### keys.py: raw key tokens and their classification -/

/-- keys.py `is_up`: `code in UP_ARROW`, `UP_ARROW = {"\x1b[A"}`. -/
def is_up (code : Str) : Bool := code = ['\x1b', '[', 'A']

/-- keys.py `is_down`: `code in DOWN_ARROW`, `DOWN_ARROW = {"\x1b[B"}`. -/
def is_down (code : Str) : Bool := code = ['\x1b', '[', 'B']

/-- keys.py `is_ok`: `code in OK_BUTTON`, `OK_BUTTON = {"\r", "\n\r", "\r\n"}`. -/
def is_ok (code : Str) : Bool :=
  code = ['\r'] || code = ['\n', '\r'] || code = ['\r', '\n']

/-- keys.py `is_esc`: `code in ESC_BUTTON`, `ESC_BUTTON = {"\x1b"}`. -/
def is_esc (code : Str) : Bool := code = ['\x1b']

/-- keys.py `is_backspace`: `code in BACKSPACE`, `BACKSPACE = {"\x7f"}`. -/
def is_backspace (code : Str) : Bool := code = ['\x7f']

/-- The Python exceptions that can cross the embedded code's boundaries. -/
inductive PyExc where
  /-- `OSError` from `open("/dev/tty")` when no controlling terminal exists. -/
  | osErr
  /-- `RuntimeError("generator didn't yield")` raised by
  `contextlib.contextmanager` when the `raw_terminal` generator swallows a
  `termios.error` and returns without yielding. -/
  | rtGenErr
  /-- `KeyboardInterrupt` raised by `_translate_ch_to_exc` on `"\x03"`. -/
  | kbInt
  /-- `EOFError` raised by `_translate_ch_to_exc` on `"\x04"` (non-Windows). -/
  | eofErr
  /-- `menu.QuitException` raised by `Menu.check_key` on Escape with an empty
  filter. -/
  | quitExc
  /-- `KeyError` from `self._items[key]` in `Menu.search`. -/
  | keyErr
  /-- `IndexError` from `items[self._selected_index]` in `Menu.check_key`. -/
  | idxErr
deriving DecidableEq

/-- keys.py `_translate_ch_to_exc` (non-Windows branch): `"\x03"` raises
`KeyboardInterrupt`, `"\x04"` raises `EOFError`, anything else is returned
unchanged. -/
def translate_ch (c : Str) : Except PyExc Str :=
  if c = ['\x03'] then .error .kbInt
  else if c = ['\x04'] then .error .eofErr
  else .ok c

/-! ### menu.py: the fuzzy scorer -/

/-- Spec contract for the external `fuzz.WRatio`: a similarity score in
`[0, 100]`. -/
def WRatioBounded (w : Str → Str → Nat) : Prop := ∀ n o, w n o ≤ 100

/-- Python `option.find(needle)` restricted to found/not-found: the least
index at which `needle` occurs as a contiguous substring of the haystack,
`none` when Python would return `-1`.  Auxiliary recursion on the haystack. -/
def pyFindAux (needle : Str) : Str → Option Nat
  | [] => if needle.isPrefixOf ([] : Str) then some 0 else none
  | c :: t =>
    if needle.isPrefixOf (c :: t) then some 0
    else (pyFindAux needle t).map (· + 1)

/-- Python `option.find(needle)` (see `pyFindAux`). -/
def pyFind (option needle : Str) : Option Nat := pyFindAux needle option

/-- menu.py `fuzz_scorer`, with the external `fuzz.WRatio` abstracted as `w`:
if `option.startswith(needle)` the score is `100 + len(needle) * 10`;
otherwise the base score is `w needle option`, and when it is at least 30 and
`needle` occurs in `option` at index `index`, `len(option) - index` is
added. -/
def fuzz_scorer (w : Str → Str → Nat) (needle option : Str) : Nat :=
  if needle.isPrefixOf option then 100 + needle.length * 10
  else
    let score := w needle option
    if 30 ≤ score then
      match pyFind option needle with
      | some index => score + (option.length - index)
      | none => score
    else score

/-! ### menu.py: search (`process.extract` modelled from the spec) -/

/-- Ranking order on `(option, score)` pairs: descending by score.  Used by
the stable sort modelling `process.extract`. -/
def rScore (a b : Str × Nat) : Prop := b.2 ≤ a.2

instance : DecidableRel rScore := fun a b => Nat.decLe b.2 a.2

instance : IsTotal (Str × Nat) rScore := ⟨fun a b => Nat.le_total b.2 a.2⟩

instance : IsTrans (Str × Nat) rScore := ⟨fun _ _ _ h1 h2 => le_trans h2 h1⟩

/-- Modelled from the spec: the full ranking that `thefuzz.process.extract`
produces before truncation — every haystack entry scored against the needle,
stably sorted by descending score (ties keep the haystack order). -/
def sortScored (scorer : Str → Str → Nat) (needle : Str) (hay : List Str) :
    List (Str × Nat) :=
  List.insertionSort rScore (hay.map (fun o => (o, scorer needle o)))

/-- Modelled from the spec: `thefuzz.process.extract(needle, hay, scorer,
limit)` — the first `limit` entries of the stable descending ranking. -/
def extract (scorer : Str → Str → Nat) (needle : Str) (hay : List Str)
    (limit : Nat) : List (Str × Nat) :=
  (sortScored scorer needle hay).take limit

/-- menu.py `search_for_matches`: `process.extract(needle.lower(), haystacks,
scorer=fuzz_scorer, limit=limit)` filtered to scores `>= threshold`.  The
source's defaults are `limit = 10`, `threshold = 46`. -/
def search_for_matches (w : Str → Str → Nat) (needle : Str) (hay : List Str)
    (limit threshold : Nat) : List (Str × Nat) :=
  (extract (fuzz_scorer w) (toLowerS needle) hay limit).filter
    (fun p => decide (threshold ≤ p.2))

/-! ### menu.py: the Menu state machine -/

/-- The mutable state of a `Menu` object.  `items` is `self._items`,
`filtered` is `self._items_filtered`, `idx` is `self._selected_index` (a
Python `int`, so modelled as `Int`), `done` is `self._done`, `value` is
`self.value`, `filter` is `self.filter`.  `searcher` and `scorer` are the
constructor arguments stored as `self._searcher` / `self._scorer`. -/
structure MenuState where
  prompt : Str
  items : List (Str × Str)
  filtered : List (Str × Str)
  idx : Int
  done : Bool
  value : Option Str
  filter : Str
  searcher : Str → List Str → List (Str × Nat)
  scorer : Str → Str → Nat

/-- menu.py `Menu.__init__` (plus the `run()` re-initialisation of `_done`
and `_selected_index`): the filtered view starts as the full item dict, the
cursor at 0, no value, empty filter. -/
def initMenu (p : Str) (items : List (Str × Str))
    (sr : Str → List Str → List (Str × Nat)) (sc : Str → Str → Nat) :
    MenuState :=
  ⟨p, items, items, 0, false, none, [], sr, sc⟩

/-- Python dict insertion `d[k] = v`: overwrite in place if the key is
present (keeping its position), else append. -/
def dictInsert (d : List (Str × Str)) (k v : Str) : List (Str × Str) :=
  if (List.lookup k d).isSome then
    d.map (fun p => if p.1 = k then (p.1, v) else p)
  else d ++ [(k, v)]

/-- menu.py `Menu.search`, the loop body over the results: for each returned
`option`, `key, _, _ = option.partition(":")` and `desc = self._items[key]`;
a missing key raises `KeyError` (`none` here). -/
def buildFiltered (items : List (Str × Str)) :
    List (Str × Nat) → List (Str × Str) → Option (List (Str × Str))
  | [], acc => some acc
  | (option, _) :: rest, acc =>
    let key := option.takeWhile (fun c => c ≠ ':')
    match List.lookup key items with
    | none => none
    | some desc => buildFiltered items rest (dictInsert acc key desc)

/-- menu.py `Menu.search`: with a non-empty filter, build the candidates
`f"{key}: {desc}"`, run the module-level `search_for_matches` (with its
default `limit=10`, `threshold=46` and default `fuzz_scorer`), and project
the results back to `(key, desc)` pairs; with an empty filter, restore the
full item dict.  `none` models an uncaught `KeyError`. -/
def menuSearch (w : Str → Str → Nat) (s : MenuState) : Option MenuState :=
  if s.filter = [] then some { s with filtered := s.items }
  else
    match
      buildFiltered s.items
        (search_for_matches w s.filter
          (s.items.map (fun kv => kv.1 ++ [':', ' '] ++ kv.2)) 10 46) [] with
    | none => none
    | some fl => some { s with filtered := fl }

/-- The two clamping statements at the end of `Menu.check_key`:
`if idx >= len(items): idx = len(items) - 1` then `if idx < 0: idx = 0`. -/
def clampIdx (n : Nat) (i : Int) : Int :=
  let i1 := if (n : Int) ≤ i then (n : Int) - 1 else i
  if i1 < 0 then 0 else i1

/-- Apply `clampIdx` against the key tuple captured at the top of
`check_key`. -/
def applyClamp (items : List Str) (s : MenuState) : MenuState :=
  { s with idx := clampIdx items.length s.idx }

/-- Python `items[i]` on a tuple: non-negative indices in range, negative
indices counted from the end, `none` models `IndexError`. -/
def pyIndex (l : List Str) (i : Int) : Option Str :=
  if 0 ≤ i then l[i.toNat]?
  else if i.natAbs ≤ l.length then l[l.length - i.natAbs]? else none

/-- Outcome of one `Menu.check_key` call: a new state, `QuitException`, or a
propagating error (`KeyError` / `IndexError`). -/
inductive StepResult where
  | ok (s : MenuState)
  | quit
  | err (e : PyExc)

/-- menu.py `Menu.check_key`, given the token returned by `keys.getchar()`:
Escape clears a non-empty filter (cursor 0, re-search, early return with no
clamping) or raises `QuitException`; Enter with a non-empty view records the
key under the cursor and finishes; Down/Up move the cursor; everything else
is treated as Backspace or a printable character, updates the filter and
re-searches.  The final clamp compares against the key tuple captured before
the transition. -/
def checkKey (w : Str → Str → Nat) (s : MenuState) (key : Str) : StepResult :=
  if is_esc key then
    if s.filter = [] then .quit
    else
      match menuSearch w { s with filter := [], idx := 0 } with
      | some s' => .ok s'
      | none => .err .keyErr
  else if is_ok key && !(s.filtered.map Prod.fst).isEmpty then
    match pyIndex (s.filtered.map Prod.fst) s.idx with
    | some v =>
      .ok (applyClamp (s.filtered.map Prod.fst) { s with done := true, value := some v })
    | none => .err .idxErr
  else if is_down key then
    .ok (applyClamp (s.filtered.map Prod.fst) { s with idx := s.idx + 1 })
  else if is_up key then
    .ok (applyClamp (s.filtered.map Prod.fst) { s with idx := s.idx - 1 })
  else if is_backspace key then
    match menuSearch w { s with filter := s.filter.dropLast, idx := 0 } with
    | some s2 => .ok (applyClamp (s.filtered.map Prod.fst) s2)
    | none => .err .keyErr
  else
    match menuSearch w { s with filter := s.filter ++ toLowerS key, idx := 0 } with
    | some s2 => .ok (applyClamp (s.filtered.map Prod.fst) s2)
    | none => .err .keyErr

/-- The `while not self._done: self.check_key()` loop of `Menu.run`, fed a
scripted list of raw key tokens (each first passed through
`_translate_ch_to_exc` as `keys.getchar` does).  Stops at the end of the
script, when `_done` is set, or when an exception escapes `check_key`. -/
def processToks (w : Str → Str → Nat) : MenuState → List Str → StepResult
  | s, [] => .ok s
  | s, t :: ts =>
    if s.done then .ok s
    else
      match translate_ch t with
      | .error e => .err e
      | .ok k =>
        match checkKey w s k with
        | .ok s' => processToks w s' ts
        | .quit => .quit
        | .err e => .err e

/-- The `try/except` of `Menu.run` applied to a loop outcome: a normal exit
returns `self.value`, `QuitException` (and, at the driver level,
`KeyboardInterrupt`/`EOFError`) returns `None`; other exceptions
propagate. -/
def runOutcome : StepResult → Except PyExc (Option Str)
  | .ok s => .ok s.value
  | .quit => .ok none
  | .err e => .error e

/-! ### keys.py: raw terminal acquisition (Unix branch) and the session
driver, for the error-handling claim -/

/-- The terminal-environment facts `raw_terminal` depends on: whether stdin
is a tty, whether `/dev/tty` can be opened, whether `termios.tcgetattr` and
`tty.setraw` succeed. -/
structure TermEnv where
  stdinIsTty : Bool
  devTtyOpens : Bool
  tcgetattrOk : Bool
  setrawOk : Bool

/-- What one entry/exit through the `raw_terminal` context manager does:
its result, whether raw mode was entered (`tty.setraw` ran to completion),
and whether `termios.tcsetattr(fd, TCSADRAIN, old_settings)` ran. -/
structure RawTermOutcome where
  result : Except PyExc Unit
  rawEntered : Bool
  restored : Bool

/-- keys.py `raw_terminal` (Unix branch).  If stdin is not a tty and
`/dev/tty` cannot be opened, the `open` call raises `OSError` before any
`try`.  If `tcgetattr` fails, the `except termios.error: pass` swallows the
error, the generator returns without yielding, and
`contextlib.contextmanager` raises `RuntimeError("generator didn't yield")`;
the terminal settings were never touched.  If `setraw` fails, the inner
`finally` restores the old settings and the same `RuntimeError` surfaces.
On success the body runs in raw mode and the `finally` restores the old
settings. -/
def raw_terminal (env : TermEnv) : RawTermOutcome :=
  if !env.stdinIsTty && !env.devTtyOpens then ⟨.error .osErr, false, false⟩
  else if !env.tcgetattrOk then ⟨.error .rtGenErr, false, false⟩
  else if !env.setrawOk then ⟨.error .rtGenErr, false, true⟩
  else ⟨.ok (), true, true⟩

/-- The session loop of `Menu.run` with the real `keys.getchar`: each
iteration re-enters `raw_terminal` (as `getchar` does), reads one scripted
token, translates control characters to exceptions, and feeds the token to
`check_key`.  Exceptions propagate as errors; `QuitException` becomes
`quitExc`. -/
def runLoop (w : Str → Str → Nat) (env : TermEnv) :
    MenuState → List Str → Except PyExc (Option Str)
  | s, toks =>
    if s.done then .ok s.value
    else
      match (raw_terminal env).result with
      | .error e => .error e
      | .ok _ =>
        match toks with
        | [] => .ok s.value
        | t :: ts =>
          match translate_ch t with
          | .error e => .error e
          | .ok k =>
            match checkKey w s k with
            | .ok s' => runLoop w env s' ts
            | .quit => .error .quitExc
            | .err e => .error e

/-- menu.py `Menu.run`: the loop wrapped in
`except (KeyboardInterrupt, EOFError, QuitException): return None`.
`QuitException` is a `RuntimeError` subclass, but the handler names it
explicitly; a plain `RuntimeError` (such as contextlib's
"generator didn't yield") and `OSError`/`KeyError` are not caught. -/
def runMenu (w : Str → Str → Nat) (env : TermEnv) (s : MenuState)
    (toks : List Str) : Except PyExc (Option Str) :=
  match runLoop w env s toks with
  | .error .kbInt => .ok none
  | .error .eofErr => .ok none
  | .error .quitExc => .ok none
  | r => r

/-- The searcher default argument of `Menu.__init__`:
`search_for_matches` with its own defaults. -/
def searcherDefault (w : Str → Str → Nat) : Str → List Str → List (Str × Nat) :=
  fun n h => search_for_matches w n h 10 46

/-- menu.py `Menu.prompt(prompt, items)`: construct a `Menu` with the default
searcher and scorer and `run()` it. -/
def promptModel (w : Str → Str → Nat) (env : TermEnv) (p : Str)
    (items : List (Str × Str)) (toks : List Str) : Except PyExc (Option Str) :=
  runMenu w env (initMenu p items (searcherDefault w) (fuzz_scorer w)) toks

/-! ### Invariants and projections used by the claims -/

/-- The spec's cursor invariant: `0 <= cursor < len(FilteredView)` whenever
the view is non-empty, and `cursor = 0` when it is empty. -/
def MenuInv (s : MenuState) : Prop :=
  (s.filtered = [] → s.idx = 0) ∧
    (s.filtered ≠ [] → 0 ≤ s.idx ∧ s.idx < (s.filtered.length : Int))

/-- A raw token that classifies as a printable-character event: none of the
reserved Up/Down/Enter/Escape/Backspace tokens. -/
def charTok (t : Str) : Prop :=
  is_esc t = false ∧ is_ok t = false ∧ is_down t = false ∧ is_up t = false ∧
    is_backspace t = false

instance (t : Str) : Decidable (charTok t) := by
  unfold charTok
  infer_instance

/-- Concatenation of the lower-cased tokens, i.e. the FilterState built by a
sequence of printable-character events from an empty filter. -/
def flatLower : List Str → Str
  | [] => []
  | t :: ts => toLowerS t ++ flatLower ts

/-- Total number of characters a token sequence appends to the filter (one
Backspace removes one character). -/
def totalChars (toks : List Str) : Nat := (toks.map List.length).sum

/-- FilteredView of a loop outcome (`none` if the session did not end in a
live state). -/
def viewOf : StepResult → Option (List (Str × Str))
  | .ok s => some s.filtered
  | .quit => none
  | .err _ => none

/-- FilterState of a loop outcome. -/
def resFilterOf : StepResult → Option Str
  | .ok s => some s.filter
  | .quit => none
  | .err _ => none

/-- `_done` flag of a loop outcome. -/
def resDoneOf : StepResult → Option Bool
  | .ok s => some s.done
  | .quit => none
  | .err _ => none

/-- The propagating exception of a loop outcome, if any. -/
def resErrOf : StepResult → Option PyExc
  | .err e => some e
  | _ => none

/-- Overwrite the stored `_searcher`/`_scorer` constructor arguments of a
state, leaving every other field unchanged. -/
def setFns (sr : Str → List Str → List (Str × Nat)) (sc : Str → Str → Nat)
    (s : MenuState) : MenuState :=
  { s with searcher := sr, scorer := sc }

/-- Map a state transformer over a successful step outcome. -/
def StepResult.mapS (f : MenuState → MenuState) : StepResult → StepResult
  | .ok s => .ok (f s)
  | .quit => .quit
  | .err e => .err e

/-! ### Concrete scenario data -/

/-- The Escape key token. -/
def escKey : Str := ['\x1b']

/-- The Enter key token. -/
def okKey : Str := ['\r']

/-- The Up-arrow key token. -/
def upKey : Str := ['\x1b', '[', 'A']

/-- The Down-arrow key token. -/
def downKey : Str := ['\x1b', '[', 'B']

/-- The Backspace key token. -/
def backspaceKey : Str := ['\x7f']

/-- The option `"x" + "a" + 50 * "b"` (length 52): a long option that does
not start with `"a"` but contains it at index 1. -/
def xaOpt : Str := 'x' :: 'a' :: List.replicate 50 'b'

/-- The option `"Apple"`. -/
def appleS : Str := ['A', 'p', 'p', 'l', 'e']

/-- Modelled from the spec: a concrete admissible instance of the external
weighted-ratio similarity (`fuzz.WRatio` is absent from `src/`; the spec
constrains it to a weighted-ratio score in `[0, 100]`).  Its two non-zero
table entries reproduce thefuzz's values on the pairs the concrete runs
exercise: `WRatio("a", "xa" + 50*"b") = 60` (an exact substring gives a
partial ratio of 100, scaled by 0.6 because the length ratio exceeds 8) and
`WRatio("ap", "Apple") = 45` (best partial window `"Ap"` has ratio 50,
scaled by 0.9); elsewhere 0. -/
def wratioModel (n o : Str) : Nat :=
  if n = ['a'] ∧ o = xaOpt then 60
  else if n = ['a', 'p'] ∧ o = appleS then 45
  else 0

/-- A stand-in searcher constructor argument (never consulted by the code). -/
def dummySearcher : Str → List Str → List (Str × Nat) := fun _ _ => []

/-- A stand-in scorer constructor argument (never consulted by the code). -/
def dummyScorer : Str → Str → Nat := fun _ _ => 0

/-- Item set `{"a": "x"}`. -/
def items1 : List (Str × Str) := [(['a'], ['x'])]

/-- Item set `{"a": "x", "b": "y"}`. -/
def itemsW : List (Str × Str) := [(['a'], ['x']), (['b'], ['y'])]

/-- Item set `{"a": "apple"}`. -/
def items7 : List (Str × Str) := [(['a'], ['a', 'p', 'p', 'l', 'e'])]

/-- Item set `{"a:b": "x"}` — a key containing a colon. -/
def items10 : List (Str × Str) := [(['a', ':', 'b'], ['x'])]

/-- A fresh `Menu` over `items1` with stand-in searcher/scorer. -/
def m1 : MenuState := initMenu [] items1 dummySearcher dummyScorer

/-- A fresh `Menu` over `items10` with stand-in searcher/scorer. -/
def m10 : MenuState := initMenu [] items10 dummySearcher dummyScorer

/-- An active state over `items1` with filter `"z"` and an empty view. -/
def sNE : MenuState := ⟨[], items1, [], 0, false, none, ['z'], dummySearcher, dummyScorer⟩

/-- An active state over `items1` with an empty filter. -/
def sEM : MenuState := ⟨[], items1, items1, 0, false, none, [], dummySearcher, dummyScorer⟩

/-- An environment where stdin is not a tty and `/dev/tty` cannot be
opened. -/
def envNoTty : TermEnv := ⟨false, false, true, true⟩

/-- An environment where `termios.tcgetattr` fails. -/
def envNoTcg : TermEnv := ⟨true, true, false, true⟩

/-- An environment where raw-terminal acquisition succeeds. -/
def envOk : TermEnv := ⟨true, true, true, true⟩

/-- The two haystack candidates `"a: x"` and `"q: y"`. -/
def hay3 : List Str := [['a', ':', ' ', 'x'], ['q', ':', ' ', 'y']]

/-! ### Helper lemmas -/

/-- The modelled weighted ratio satisfies the spec's range contract. -/
theorem wratioModel_bounded : WRatioBounded wratioModel := by
  intro n o
  unfold wratioModel
  split
  · omega
  · split <;> omega

/-- If `option.find(needle)` returns index 0, the option starts with the
needle. -/
theorem pyFind_zero {o n : Str} (h : pyFind o n = some 0) :
    n.isPrefixOf o = true := by
  unfold pyFind at h
  cases o with
  | nil =>
    unfold pyFindAux at h
    split at h
    · assumption
    · exact absurd h (by simp)
  | cons c t =>
    unfold pyFindAux at h
    split at h
    · assumption
    · rcases Option.map_eq_some'.mp h with ⟨i, _, hi⟩
      omega

/-! ### Claims about the fuzzy scorer and search -/

/-- C2 (amended): for a prefix match the score is exactly
`100 + 10 * length(needle)`, and it beats every non-prefix match whose
option is at most `10 * length(needle)` characters long (the base score
being bounded by 100).  Without that length bound the substring bonus
`length(option) - index` can push a non-prefix match past a prefix match
(see the counterexample). -/
theorem c2_prefix_score_amended (w : Str → Str → Nat) (hw : WRatioBounded w)
    (n o1 o2 : Str) (h1 : n.isPrefixOf o1 = true) (h2 : n.isPrefixOf o2 = false) :
    fuzz_scorer w n o1 = 100 + 10 * n.length ∧
      (o2.length ≤ 10 * n.length → fuzz_scorer w n o2 < fuzz_scorer w n o1) := by
  have hn : n ≠ [] := by
    intro hnil
    subst hnil
    simp [List.isPrefixOf] at h2
  have hnlen : 1 ≤ n.length := by
    cases n with
    | nil => exact absurd rfl hn
    | cons c t => simp
  have e1 : fuzz_scorer w n o1 = 100 + 10 * n.length := by
    simp [fuzz_scorer, h1]
    ring
  refine ⟨e1, fun hlen => ?_⟩
  rw [e1]
  have hb := hw n o2
  simp only [fuzz_scorer, h2, Bool.false_eq_true, if_false]
  split
  · cases hf : pyFind o2 n with
    | none => simp only [hf]; omega
    | some i =>
      have hi : i ≠ 0 := by
        intro h0
        subst h0
        rw [pyFind_zero hf] at h2
        exact absurd h2 (by simp)
      simp only [hf]
      omega
  · omega

/-- C2 counterexample: with needle `"a"`, the prefix match `"a"` scores
`110`, while the non-prefix option `"x" + "a" + 50*"b"` gets base 60 plus
the substring bonus `52 - 1 = 51`, i.e. `111`; the prefix match does not
outrank it. -/
theorem c2_counterexample :
    List.isPrefixOf ['a'] ['a'] = true ∧
    List.isPrefixOf ['a'] xaOpt = false ∧
    ¬ (fuzz_scorer wratioModel ['a'] xaOpt < fuzz_scorer wratioModel ['a'] ['a']) := by
  refine ⟨by decide, by decide, by decide⟩

/-- Witness for C2 (amended) at needle `"a"`, prefix option `"ab"` and
non-prefix option `"xa"` (length 2 ≤ 10). -/
theorem c2_amended_witness :
    fuzz_scorer wratioModel ['a'] ['a', 'b'] = 100 + 10 * (['a'] : Str).length ∧
    fuzz_scorer wratioModel ['a'] ['x', 'a'] < fuzz_scorer wratioModel ['a'] ['a', 'b'] :=
  ⟨(c2_prefix_score_amended wratioModel wratioModel_bounded ['a'] ['a', 'b']
      ['x', 'a'] (by decide) (by decide)).1,
   (c2_prefix_score_amended wratioModel wratioModel_bounded ['a'] ['a', 'b']
      ['x', 'a'] (by decide) (by decide)).2 (by decide)⟩

/-- C6 (amended): when `option` starts with `needle` in the code's
case-sensitive sense (the needle is already lower-cased by the caller, the
option is compared as-is), the score is at least 100 and strictly increases
with the needle's length.  A merely case-insensitive prefix match falls to
the fuzzy branch and can score below 100 (see the counterexample). -/
theorem c6_prefix_monotone_amended (w : Str → Str → Nat) (n n' o : Str)
    (h : n.isPrefixOf o = true) (h' : n'.isPrefixOf o = true)
    (hlt : n.length < n'.length) :
    100 ≤ fuzz_scorer w n o ∧ fuzz_scorer w n o < fuzz_scorer w n' o := by
  simp [fuzz_scorer, h, h']
  omega

/-- C6 counterexample: `"Apple"` starts with `"ap"` case-insensitively, but
`"Apple".startswith("ap")` is false, so the score falls to the fuzzy branch
(base 45, no substring bonus because `"Apple".find("ap") == -1`) and stays
below 100. -/
theorem c6_counterexample :
    List.isPrefixOf (toLowerS ['a', 'p']) (toLowerS appleS) = true ∧
    fuzz_scorer wratioModel ['a', 'p'] appleS < 100 := by
  refine ⟨by decide, by decide⟩

/-- Witness for C6 (amended) at option `"app"` with needles `"a"` and
`"ap"`. -/
theorem c6_amended_witness :
    100 ≤ fuzz_scorer wratioModel ['a'] ['a', 'p', 'p'] ∧
    fuzz_scorer wratioModel ['a'] ['a', 'p', 'p'] <
      fuzz_scorer wratioModel ['a', 'p'] ['a', 'p', 'p'] :=
  ⟨(c6_prefix_monotone_amended wratioModel ['a'] ['a', 'p'] ['a', 'p', 'p']
      (by decide) (by decide) (by decide)).1,
   (c6_prefix_monotone_amended wratioModel ['a'] ['a', 'p'] ['a', 'p', 'p']
      (by decide) (by decide) (by decide)).2⟩

/-- C3: `search_for_matches` returns at most `limit` pairs, every returned
score is at least `threshold` (the source defaults being `limit = 10`,
`threshold = 46`), the result is sorted by non-increasing score, and it is a
subsequence of the stable descending ranking, so ties keep the underlying
ranking's relative order. -/
theorem c3_search_policy (w : Str → Str → Nat) (needle : Str) (hay : List Str)
    (limit threshold : Nat) :
    (search_for_matches w needle hay limit threshold).length ≤ limit ∧
    (∀ p, p ∈ search_for_matches w needle hay limit threshold → threshold ≤ p.2) ∧
    List.Pairwise rScore (search_for_matches w needle hay limit threshold) ∧
    (search_for_matches w needle hay limit threshold).Sublist
      (sortScored (fuzz_scorer w) (toLowerS needle) hay) := by
  have hsub : (search_for_matches w needle hay limit threshold).Sublist
      (sortScored (fuzz_scorer w) (toLowerS needle) hay) := by
    unfold search_for_matches extract
    exact (List.filter_sublist _).trans (List.take_sublist _ _)
  have hsort : List.Pairwise rScore (sortScored (fuzz_scorer w) (toLowerS needle) hay) :=
    List.sorted_insertionSort rScore _
  refine ⟨?_, ?_, List.Pairwise.sublist hsub hsort, hsub⟩
  · unfold search_for_matches extract
    refine le_trans (List.length_filter_le _ _) ?_
    rw [List.length_take]
    exact min_le_left _ _
  · intro q hq
    unfold search_for_matches at hq
    exact of_decide_eq_true (List.mem_filter.mp hq).2

/-- Witness for C3 at needle `"a"`, haystack `["a: x", "q: y"]`,
`limit = 1`, `threshold = 46`: the single returned pair is `("a: x", 110)`
and its score clears the threshold. -/
theorem c3_witness :
    (search_for_matches wratioModel ['a'] hay3 1 46).length ≤ 1 ∧
    46 ≤ ((['a', ':', ' ', 'x'], 110) : Str × Nat).2 :=
  ⟨(c3_search_policy wratioModel ['a'] hay3 1 46).1,
   (c3_search_policy wratioModel ['a'] hay3 1 46).2.1 (['a', ':', ' ', 'x'], 110)
     (by decide)⟩

/-! ### Claims about the state machine -/

/-- The two clamping statements keep the index in `[0, n)` for `n > 0` and
send it to 0 for `n = 0`, whatever it was before. -/
theorem clampIdx_bounds (n : Nat) (i : Int) :
    (n = 0 → clampIdx n i = 0) ∧
      (0 < n → 0 ≤ clampIdx n i ∧ clampIdx n i < (n : Int)) := by
  simp only [clampIdx]
  constructor
  · intro h
    subst h
    split_ifs <;> omega
  · intro h
    split_ifs <;> omega

/-- Clamping an index that is already 0 leaves it at 0. -/
theorem clampIdx_zero (n : Nat) : clampIdx n 0 = 0 := by
  simp only [clampIdx]
  split_ifs <;> omega

/-- Any state whose cursor is 0 satisfies the cursor invariant. -/
theorem menuInv_idx0 {s : MenuState} (h : s.idx = 0) : MenuInv s := by
  constructor
  · intro _
    exact h
  · intro hne
    have hl := List.length_pos.mpr hne
    omega

/-- Clamping against the current view's key tuple establishes the cursor
invariant, whatever index is being clamped. -/
theorem menuInv_clampIdx (s : MenuState) (j : Int) :
    MenuInv { s with idx := clampIdx (s.filtered.map Prod.fst).length j } := by
  have hb := clampIdx_bounds (s.filtered.map Prod.fst).length j
  constructor
  · intro hfl
    show clampIdx (s.filtered.map Prod.fst).length j = 0
    refine hb.1 ?_
    rw [List.length_map, hfl]
    rfl
  · intro hne
    have hl : 0 < (s.filtered.map Prod.fst).length := by
      rw [List.length_map]
      exact List.length_pos.mpr hne
    have h2 := hb.2 hl
    show 0 ≤ clampIdx (s.filtered.map Prod.fst).length j ∧
      clampIdx (s.filtered.map Prod.fst).length j < (s.filtered.length : Int)
    simpa using h2

/-- Every successful `check_key` transition re-establishes the cursor
invariant (the final clamp, or the explicit cursor reset, repairs any
index). -/
theorem menuSearch_idx {w : Str → Str → Nat} {s s2 : MenuState}
    (heq : menuSearch w s = some s2) : s2.idx = s.idx := by
  unfold menuSearch at heq
  split at heq
  · cases heq
    rfl
  · split at heq
    · simp at heq
    · cases heq
      rfl

theorem checkKey_inv (w : Str → Str → Nat) (s : MenuState) (k : Str)
    (s' : MenuState) (h : checkKey w s k = .ok s') : MenuInv s' := by
  unfold checkKey at h
  split at h
  · -- Escape
    split at h
    · simp at h
    · -- menuSearch on the cleared filter
      split at h
      · rename_i s1 heq
        cases h
        have := menuSearch_idx heq
        exact menuInv_idx0 (by rw [this])
      · simp at h
  · -- not Escape
    split at h
    · -- Enter with a non-empty view
      split at h
      · cases h
        exact menuInv_clampIdx { s with done := true, value := _ } s.idx
      · simp at h
    · split at h
      · -- Down
        cases h
        exact menuInv_clampIdx s (s.idx + 1)
      · split at h
        · -- Up
          cases h
          exact menuInv_clampIdx s (s.idx - 1)
        · split at h
          · -- Backspace
            split at h
            · rename_i s2 heq
              cases h
              have h2 := menuSearch_idx heq
              refine menuInv_idx0 ?_
              show clampIdx (s.filtered.map Prod.fst).length s2.idx = 0
              rw [h2]
              exact clampIdx_zero _
            · simp at h
          · -- printable character
            split at h
            · rename_i s2 heq
              cases h
              have h2 := menuSearch_idx heq
              refine menuInv_idx0 ?_
              show clampIdx (s.filtered.map Prod.fst).length s2.idx = 0
              rw [h2]
              exact clampIdx_zero _
            · simp at h

/-- The cursor invariant is preserved along any scripted run of the key
loop. -/
theorem processToks_inv (w : Str → Str → Nat) (toks : List Str) :
    ∀ s s', MenuInv s → processToks w s toks = .ok s' → MenuInv s' := by
  induction toks with
  | nil =>
    intro s s' hinv h
    cases h
    exact hinv
  | cons t ts ih =>
    intro s s' hinv h
    unfold processToks at h
    split at h
    · cases h
      exact hinv
    · split at h
      · exact absurd h (by simp)
      · split at h
        · rename_i s1 heq
          exact ih _ _ (checkKey_inv _ _ _ _ heq) h
        · exact absurd h (by simp)
        · exact absurd h (by simp)

/-- C4: starting from a fresh menu, after any sequence of Up, Down,
printable-character and Backspace events (no Escape, no Enter) that the loop
survives, the cursor satisfies `0 <= cursor < len(FilteredView)` when the
view is non-empty and `cursor = 0` when it is empty. -/
theorem c4_cursor_invariant (w : Str → Str → Nat) (p : Str)
    (items : List (Str × Str)) (sr : Str → List Str → List (Str × Nat))
    (sc : Str → Str → Nat) (toks : List Str)
    (_hev : ∀ t ∈ toks, is_esc t = false ∧ is_ok t = false) (s' : MenuState)
    (h : processToks w (initMenu p items sr sc) toks = .ok s') : MenuInv s' := by
  have h0 : MenuInv (initMenu p items sr sc) := menuInv_idx0 rfl
  exact processToks_inv w toks _ s' h0 h

/-- Witness for C4: items `{"a": "x", "b": "y"}`, events Down, Down, Up;
the run ends with cursor 0 over the full two-element view, inside the
invariant. -/
theorem c4_witness :
    MenuInv ⟨[], itemsW, itemsW, 0, false, none, [], dummySearcher, dummyScorer⟩ :=
  c4_cursor_invariant wratioModel [] itemsW dummySearcher dummyScorer
    [downKey, downKey, upKey] (by decide) _ rfl

/-- C5: while `Active`, Escape with a non-empty FilterState clears the
filter, resets the cursor to 0, recomputes the FilteredView to the full item
set and stays live; Escape with an empty FilterState raises
`QuitException`, which `run` turns into the "no selection" result `none`. -/
theorem c5_cancel (w : Str → Str → Nat) (s : MenuState) (_hA : s.done = false) :
    (s.filter ≠ [] →
      checkKey w s escKey =
        .ok { s with filter := [], idx := 0, filtered := s.items }) ∧
    (s.filter = [] →
      checkKey w s escKey = .quit ∧
        runOutcome (checkKey w s escKey) = .ok none) := by
  constructor
  · intro hf
    unfold checkKey
    rw [if_pos (show is_esc escKey = true from rfl), if_neg hf]
    have hms : menuSearch w { s with filter := [], idx := 0 } =
        some { s with filter := [], idx := 0, filtered := s.items } := by
      unfold menuSearch
      rw [if_pos rfl]
    rw [hms]
  · intro hf
    have hq : checkKey w s escKey = .quit := by
      unfold checkKey
      rw [if_pos (show is_esc escKey = true from rfl), if_pos hf]
    exact ⟨hq, by rw [hq]; rfl⟩

/-- Witness for C5: over `{"a": "x"}`, Escape on a state with filter `"z"`
restores the full view and stays live; Escape on the empty-filter state
quits with result `none`. -/
theorem c5_witness :
    checkKey wratioModel sNE escKey = .ok sEM ∧
    checkKey wratioModel sEM escKey = .quit ∧
    runOutcome (checkKey wratioModel sEM escKey) = .ok none :=
  ⟨(c5_cancel wratioModel sNE rfl).1 (by decide),
   ((c5_cancel wratioModel sEM rfl).2 rfl).1,
   ((c5_cancel wratioModel sEM rfl).2 rfl).2⟩

/-- A successful `menuSearch` never changes the item set. -/
theorem menuSearch_items {w : Str → Str → Nat} {s s2 : MenuState}
    (heq : menuSearch w s = some s2) : s2.items = s.items := by
  unfold menuSearch at heq
  split at heq
  · cases heq
    rfl
  · split at heq
    · simp at heq
    · cases heq
      rfl

/-- One printable-character step: the token's lower-casing is appended to the
filter, the item set and `_done` are untouched, and if the new filter is
empty the view is the full item set. -/
theorem charStep (w : Str → Str → Nat) {s s' : MenuState} {t : Str}
    (hc : charTok t) (h : checkKey w s t = .ok s') :
    s'.done = s.done ∧ s'.items = s.items ∧ s'.filter = s.filter ++ toLowerS t ∧
      (s'.filter = [] → s'.filtered = s.items) := by
  obtain ⟨he, hok, hd, hu, hb⟩ := hc
  unfold checkKey at h
  rw [he, hok, hd, hu, hb] at h
  simp only [Bool.false_eq_true, if_false, Bool.false_and] at h
  split at h
  · rename_i s2 heq
    cases h
    unfold menuSearch at heq
    split at heq
    · cases heq
      exact ⟨rfl, rfl, rfl, fun _ => rfl⟩
    · rename_i hne
      split at heq
      · simp at heq
      · cases heq
        exact ⟨rfl, rfl, rfl, fun hemp => absurd hemp hne⟩
  · simp at h

/-- One Backspace step: the last filter character is dropped, the item set
and `_done` are untouched, and if the new filter is empty the view is the
full item set. -/
theorem backspaceStep (w : Str → Str → Nat) {s s' : MenuState}
    (h : checkKey w s backspaceKey = .ok s') :
    s'.done = s.done ∧ s'.items = s.items ∧ s'.filter = s.filter.dropLast ∧
      (s'.filter = [] → s'.filtered = s.items) := by
  have h' : (match menuSearch w { s with filter := s.filter.dropLast, idx := 0 } with
      | some s2 => StepResult.ok (applyClamp (s.filtered.map Prod.fst) s2)
      | none => StepResult.err .keyErr) = .ok s' := h
  clear h
  split at h'
  · rename_i s2 heq
    cases h'
    unfold menuSearch at heq
    split at heq
    · cases heq
      exact ⟨rfl, rfl, rfl, fun _ => rfl⟩
    · rename_i hne
      split at heq
      · simp at heq
      · cases heq
        exact ⟨rfl, rfl, rfl, fun hemp => absurd hemp hne⟩
  · simp at h'

/-- One-step unfolding of the key loop. -/
theorem processToks_cons (w : Str → Str → Nat) (s : MenuState) (t : Str)
    (ts : List Str) :
    processToks w s (t :: ts) =
      if s.done = true then .ok s
      else
        match translate_ch t with
        | .error e => .err e
        | .ok k =>
          match checkKey w s k with
          | .ok s' => processToks w s' ts
          | .quit => .quit
          | .err e => .err e := rfl

/-- A finished state absorbs the rest of the script. -/
theorem processToks_done (w : Str → Str → Nat) (l : List Str) (s : MenuState)
    (hd : s.done = true) : processToks w s l = .ok s := by
  cases l with
  | nil => rfl
  | cons t ts =>
    rw [processToks_cons, if_pos hd]

/-- Splitting a scripted run at a concatenation point. -/
theorem processToks_append (w : Str → Str → Nat) (l1 l2 : List Str) :
    ∀ s, processToks w s (l1 ++ l2) =
      match processToks w s l1 with
      | .ok s1 => processToks w s1 l2
      | .quit => .quit
      | .err e => .err e := by
  induction l1 with
  | nil => intro s; rfl
  | cons t ts ih =>
    intro s
    rw [List.cons_append, processToks_cons w s t (ts ++ l2),
      processToks_cons w s t ts]
    by_cases hd : s.done = true
    · rw [if_pos hd, if_pos hd]
      exact (processToks_done w l2 s hd).symm
    · rw [if_neg hd, if_neg hd]
      cases htr : translate_ch t with
      | error e => simp only [htr]
      | ok k =>
        simp only [htr]
        cases hck : checkKey w s k with
        | ok s1 => simp only [hck]; exact ih s1
        | quit => simp only [hck]
        | err e => simp only [hck]

/-- The filter built by a sequence of printable-character events has one
character per appended (lower-cased) token character. -/
theorem flatLower_length (toks : List Str) :
    (flatLower toks).length = totalChars toks := by
  induction toks with
  | nil => rfl
  | cons t ts ih =>
    simp only [flatLower, totalChars, List.length_append, List.map_cons,
      List.sum_cons, toLowerS, List.length_map] at ih ⊢
    omega

/-- Phase 1 of the round trip: processing only printable-character tokens
keeps the session live, preserves the item set, appends the lower-cased
tokens to the filter, and keeps the "empty filter shows everything"
property. -/
theorem charPhase (w : Str → Str → Nat) (toks : List Str) :
    ∀ s s', (∀ t ∈ toks, charTok t) → s.done = false →
      (s.filter = [] → s.filtered = s.items) →
      processToks w s toks = .ok s' →
      s'.done = false ∧ s'.items = s.items ∧
        s'.filter = s.filter ++ flatLower toks ∧
        (s'.filter = [] → s'.filtered = s'.items) := by
  induction toks with
  | nil =>
    intro s s' _ hdone hP h
    cases h
    exact ⟨hdone, rfl, by simp [flatLower], fun he => hP he⟩
  | cons t ts ih =>
    intro s s' hc hdone hP h
    rw [processToks_cons, if_neg (by rw [hdone]; exact Bool.false_ne_true)] at h
    split at h
    · simp at h
    · rename_i k hk
      have hkt : k = t := by
        unfold translate_ch at hk
        split at hk
        · simp at hk
        · split at hk
          · simp at hk
          · cases hk; rfl
      rw [hkt] at h
      split at h
      · rename_i s1 heq
        have hcs := charStep w (hc t (List.mem_cons_self t ts)) heq
        have hrec := ih s1 s' (fun u hu => hc u (List.mem_cons_of_mem t hu))
          (by rw [hcs.1, hdone])
          (fun he => (hcs.2.2.2 he).trans hcs.2.1.symm) h
        refine ⟨hrec.1, hrec.2.1.trans hcs.2.1, ?_, hrec.2.2.2⟩
        rw [hrec.2.2.1, hcs.2.2.1, flatLower, List.append_assoc]
      · simp at h
      · simp at h

/-- Phase 2 of the round trip: as many Backspace events as there are filter
characters empty the filter, and the final recomputation restores the full
item set as the view. -/
theorem bsPhase (w : Str → Str → Nat) :
    ∀ (n : Nat) (s s' : MenuState), s.done = false → s.filter.length = n →
      (s.filter = [] → s.filtered = s.items) →
      processToks w s (List.replicate n backspaceKey) = .ok s' →
      s'.filtered = s.items ∧ s'.filter = [] := by
  intro n
  induction n with
  | zero =>
    intro s s' _ hlen hP h
    cases h
    have he : s.filter = [] := List.length_eq_zero.mp hlen
    exact ⟨hP he, he⟩
  | succ n ih =>
    intro s s' hdone hlen hP h
    rw [List.replicate_succ] at h
    rw [processToks_cons, if_neg (by rw [hdone]; exact Bool.false_ne_true)] at h
    split at h
    · rename_i e htr
      rw [show translate_ch backspaceKey = Except.ok backspaceKey from rfl] at htr
      simp at htr
    · rename_i k htr
      have hkb : k = backspaceKey := by
        rw [show translate_ch backspaceKey = Except.ok backspaceKey from rfl] at htr
        cases htr
        rfl
      rw [hkb] at h
      split at h
      · rename_i s1 heq
        have hbs := backspaceStep w heq
        have hlen1 : s1.filter.length = n := by
          rw [hbs.2.2.1, List.length_dropLast, hlen]
          omega
        have hrec := ih s1 s' (by rw [hbs.1, hdone]) hlen1
          (fun he => (hbs.2.2.2 he).trans hbs.2.1.symm) h
        exact ⟨hrec.1.trans hbs.2.1, hrec.2⟩
      · simp at h
      · simp at h

/-- C7: typing any sequence of printable-character tokens and then pressing
Backspace once per appended character empties the FilterState, and the
resulting FilteredView is the original full item set in its original
order. -/
theorem c7_roundtrip (w : Str → Str → Nat) (p : Str) (items : List (Str × Str))
    (sr : Str → List Str → List (Str × Nat)) (sc : Str → Str → Nat)
    (toks : List Str) (hc : ∀ t ∈ toks, charTok t) (s' : MenuState)
    (h : processToks w (initMenu p items sr sc)
        (toks ++ List.replicate (totalChars toks) backspaceKey) = .ok s') :
    s'.filtered = items := by
  rw [processToks_append] at h
  split at h
  · rename_i s1 h1
    have hph := charPhase w toks (initMenu p items sr sc) s1 hc rfl (fun _ => rfl) h1
    have hlen : s1.filter.length = totalChars toks := by
      rw [hph.2.2.1]
      show (([] : Str) ++ flatLower toks).length = totalChars toks
      rw [List.nil_append]
      exact flatLower_length toks
    have hbs := bsPhase w (totalChars toks) s1 s' hph.1 hlen hph.2.2.2 h
    rw [hbs.1, hph.2.1]
    rfl
  · simp at h
  · simp at h

/-- Witness for C7: items `{"a": "apple"}`, typing `"b"` (view becomes
empty) and backspacing once restores the full view. -/
theorem c7_witness :
    (⟨[], items7, items7, 0, false, none, [], dummySearcher,
      dummyScorer⟩ : MenuState).filtered = items7 :=
  c7_roundtrip wratioModel [] items7 dummySearcher dummyScorer [['b']]
    (by decide) _ rfl

/-- C1 (code bug, evaluated): over `{"a": "x"}`, typing `"z"` empties the
FilteredView; pressing Enter then is not a no-op — `is_ok(key) and items`
fails, control falls to the printable-character branch, and `"\r"` is
appended to the FilterState (which becomes `"z\r"`), while the session stays
`Active`. -/
theorem c1_empty_confirm_not_noop :
    viewOf (processToks wratioModel m1 [['z']]) = some [] ∧
    resFilterOf (processToks wratioModel m1 [['z'], ['\r']]) = some ['z', '\r'] ∧
    resDoneOf (processToks wratioModel m1 [['z'], ['\r']]) = some false :=
  ⟨rfl, rfl, rfl⟩

/-! ### C9: the stored searcher/scorer constructor arguments are dead -/

/-- `Menu.search` reads only the item set and the filter, so the stored
`_searcher`/`_scorer` fields are irrelevant to it. -/
theorem menuSearch_fns (w : Str → Str → Nat) (p : Str) (it fl : List (Str × Str))
    (ix : Int) (dn : Bool) (vl : Option Str) (ft : Str)
    (srA srB : Str → List Str → List (Str × Nat)) (scA scB : Str → Str → Nat) :
    menuSearch w ⟨p, it, fl, ix, dn, vl, ft, srA, scA⟩ =
      (menuSearch w ⟨p, it, fl, ix, dn, vl, ft, srB, scB⟩).map (setFns srA scA) := by
  unfold menuSearch
  dsimp only
  split_ifs with hf
  · rfl
  · cases hb : buildFiltered it
      (search_for_matches w ft
        (it.map (fun kv => kv.1 ++ [':', ' '] ++ kv.2)) 10 46) [] with
    | none => simp only [hb, Option.map_none']
    | some flr =>
      simp only [hb, Option.map_some']
      rfl

/-- `Menu.check_key` never consults the stored `_searcher`/`_scorer`
fields: runs differing only in them differ only in those stored fields. -/
theorem checkKey_fns (w : Str → Str → Nat) (p : Str) (it fl : List (Str × Str))
    (ix : Int) (dn : Bool) (vl : Option Str) (ft : Str)
    (srA srB : Str → List Str → List (Str × Nat)) (scA scB : Str → Str → Nat)
    (k : Str) :
    checkKey w ⟨p, it, fl, ix, dn, vl, ft, srA, scA⟩ k =
      (checkKey w ⟨p, it, fl, ix, dn, vl, ft, srB, scB⟩ k).mapS (setFns srA scA) := by
  unfold checkKey
  dsimp only
  split_ifs
  · rfl
  · rw [menuSearch_fns w p it fl 0 dn vl [] srA srB scA scB]
    cases hm : menuSearch w ⟨p, it, fl, 0, dn, vl, [], srB, scB⟩ with
    | none => simp only [hm, Option.map_none']; rfl
    | some s2 => simp only [hm, Option.map_some']; rfl
  · cases hpi : pyIndex (List.map Prod.fst fl) ix with
    | some v => simp only [hpi]; rfl
    | none => simp only [hpi]; rfl
  · rfl
  · rfl
  · rw [menuSearch_fns w p it fl 0 dn vl ft.dropLast srA srB scA scB]
    cases hm : menuSearch w ⟨p, it, fl, 0, dn, vl, ft.dropLast, srB, scB⟩ with
    | none => simp only [hm, Option.map_none']; rfl
    | some s2 => simp only [hm, Option.map_some']; rfl
  · rw [menuSearch_fns w p it fl 0 dn vl (ft ++ toLowerS k) srA srB scA scB]
    cases hm : menuSearch w ⟨p, it, fl, 0, dn, vl, ft ++ toLowerS k, srB, scB⟩ with
    | none => simp only [hm, Option.map_none']; rfl
    | some s2 => simp only [hm, Option.map_some']; rfl

/-- The whole key loop is independent of the stored `_searcher`/`_scorer`
fields. -/
theorem processToks_fns (w : Str → Str → Nat) (toks : List Str) :
    ∀ (p : Str) (it fl : List (Str × Str)) (ix : Int) (dn : Bool)
      (vl : Option Str) (ft : Str)
      (srA srB : Str → List Str → List (Str × Nat)) (scA scB : Str → Str → Nat),
      processToks w ⟨p, it, fl, ix, dn, vl, ft, srA, scA⟩ toks =
        (processToks w ⟨p, it, fl, ix, dn, vl, ft, srB, scB⟩ toks).mapS
          (setFns srA scA) := by
  induction toks with
  | nil =>
    intro p it fl ix dn vl ft srA srB scA scB
    rfl
  | cons t ts ih =>
    intro p it fl ix dn vl ft srA srB scA scB
    rw [processToks_cons, processToks_cons]
    dsimp only
    by_cases hd : dn = true
    · rw [if_pos hd, if_pos hd]
      rfl
    · rw [if_neg hd, if_neg hd]
      cases htr : translate_ch t with
      | error e => simp only [htr]; rfl
      | ok k =>
        simp only [htr]
        rw [checkKey_fns w p it fl ix dn vl ft srA srB scA scB k]
        cases hck : checkKey w ⟨p, it, fl, ix, dn, vl, ft, srB, scB⟩ k with
        | ok s1 =>
          simp only [hck, StepResult.mapS]
          obtain ⟨q1, q2, q3, q4, q5, q6, q7, q8, q9⟩ := s1
          exact ih q1 q2 q3 q4 q5 q6 q7 srA q8 scA q9
        | quit => simp only [hck]; rfl
        | err e => simp only [hck]; rfl

/-- Mapping the stored-fields overwrite over an outcome does not change the
FilteredView projection. -/
theorem viewOf_mapS (sr : Str → List Str → List (Str × Nat))
    (sc : Str → Str → Nat) (r : StepResult) :
    viewOf (r.mapS (setFns sr sc)) = viewOf r := by
  cases r with
  | ok s => rfl
  | quit => rfl
  | err e => rfl

/-- C9: two sessions over the same items and the same token script that
differ only in the `searcher` and `scorer` constructor arguments run
identically apart from those stored fields — in particular every
FilteredView is identical — because `Menu.search` always calls the
module-level `search_for_matches` with its default `fuzz_scorer` and never
consults `self._searcher` or `self._scorer`. -/
theorem c9_searcher_scorer_unused (w : Str → Str → Nat) (p : Str)
    (items : List (Str × Str)) (sr1 sr2 : Str → List Str → List (Str × Nat))
    (sc1 sc2 : Str → Str → Nat) (toks : List Str) :
    processToks w (initMenu p items sr1 sc1) toks =
      (processToks w (initMenu p items sr2 sc2) toks).mapS (setFns sr1 sc1) ∧
    viewOf (processToks w (initMenu p items sr1 sc1) toks) =
      viewOf (processToks w (initMenu p items sr2 sc2) toks) := by
  have h := processToks_fns w toks p items items 0 false none [] sr1 sr2 sc1 sc2
  exact ⟨h, (congrArg viewOf h).trans (viewOf_mapS sr1 sc1 _)⟩

/-! ### C8 and C10: the failure modes -/

/-- C8 (code bug, evaluated): when raw-terminal acquisition fails, the
session does not return "no selection" — with no controlling terminal the
`open("/dev/tty")` `OSError` propagates out of `Menu.prompt`, and with a
failing `tcgetattr` the swallowed `termios.error` makes contextlib raise
`RuntimeError("generator didn't yield")`, which `run`'s
`except (KeyboardInterrupt, EOFError, QuitException)` does not catch.  The
prior terminal state, however, is never left corrupted: whenever raw mode
was entered, the old settings are restored by the `finally` block. -/
theorem c8_acquisition_failure :
    promptModel wratioModel envNoTty [] items1 [] = .error .osErr ∧
    promptModel wratioModel envNoTcg [] items1 [] = .error .rtGenErr ∧
    ∀ env : TermEnv,
      ((raw_terminal env).restored || !(raw_terminal env).rawEntered) = true := by
  refine ⟨rfl, rfl, ?_⟩
  intro env
  obtain ⟨a, b, c, d⟩ := env
  cases a <;> cases b <;> cases c <;> cases d <;> rfl

/-- C10: with the item set `{"a:b": "x"}` and FilterState `"a"`, the
candidate `"a:b: x"` is a prefix match (score 110 ≥ 46), `partition(":")`
truncates its key to `"a"`, and the lookup `self._items["a"]` raises an
uncaught `KeyError` — both at the `check_key` level and through
`Menu.run`, whose handler does not catch `KeyError`. -/
theorem c10_colon_key_keyerror :
    resErrOf (processToks wratioModel m10 [['a']]) = some .keyErr ∧
    runMenu wratioModel envOk m10 [['a']] = .error .keyErr :=
  ⟨rfl, rfl⟩

end RichMenu
